import Mathlib

/-!
Shallow embedding of the core of `commit-message-validator`
(`src/commit_message_validator/`), covering:

* `validators/core.py` — `ValidationFailure`, the generic `MessageValidator`
  driver loop;
* `validators/rules.py` — the regular expressions, `MessageContext`, the
  line rules, the commit rules and `RulesMessageValidator` (including its
  stateful `get_context`);
* `validators/wikimedia.py` — the `GerritMessageValidator` profile;
* `lint.py` — `lint_message` (two stable sorts) and `check_message`.

Lines of a commit message are modelled as Lean `String`s (the input contract
supplies lines without terminators).  Python regular expressions are
translated to executable character-list matchers; generators become lists;
the stateful line-context classifier becomes a recursion on the queried
index, which is equivalent to the source's single mutable field because the
driver queries indices `0, 1, 2, ...` in increasing order.
-/

/-- `ValidationFailure` from `validators/core.py`. -/
structure ValidationFailure where
  rule_id : String
  lineno : Nat
  message : String
  deriving DecidableEq, Repr

/-- `MessageContext` enum from `validators/rules.py`. -/
inductive MessageContext where
  | SUBJECT
  | BODY
  | TRAILER
  deriving DecidableEq, Repr

/-- One character of the class `[0-9a-fA-F]`. -/
def isHexDigit (c : Char) : Bool :=
  c.isDigit || decide ('a' ≤ c ∧ c ≤ 'f') || decide ('A' ≤ c ∧ c ≤ 'F')

/-- `RE_CHERRYPICK = ^\(cherry picked from commit [0-9a-fA-F]{40}\)$`
from `validators/rules.py`. -/
def reCherrypickMatch (line : String) : Bool :=
  let cs := line.toList
  let pre := "(cherry picked from commit ".toList
  pre.isPrefixOf cs &&
    (let rest := cs.drop pre.length
     rest.length == 41 && (rest.take 40).all isHexDigit && rest.getLast? == some ')')

/-- The `\S+:` portion of `RE_TRAILER`: greedily split `cs` as
`nm ++ ':' :: rest` where `nm` is non-whitespace and the chosen `':'` is the
last one reachable without crossing whitespace (Python's greedy `\S+`
backtracking picks the right-most such colon). -/
def splitTrailer : List Char → Option (List Char × List Char)
  | [] => none
  | c :: cs =>
    if c.isWhitespace then none
    else
      match splitTrailer cs with
      | some (nm, rest) => some (c :: nm, rest)
      | none => if c = ':' then some ([], cs) else none

/-- `RE_TRAILER = ^(?P<name>[a-z]\S+):(?P<ws>\s*)(?P<value>.*)$` (IGNORECASE)
from `validators/rules.py`; returns `(name, ws, value)` on a match.
`[a-z]` with `re.IGNORECASE` is modelled as an ASCII letter. -/
def reTrailerMatch (line : String) : Option (String × String × String) :=
  match line.toList with
  | [] => none
  | c :: cs =>
    if c.isAlpha then
      match splitTrailer cs with
      | some (nm, rest) =>
        if nm = [] then none
        else
          some (⟨c :: nm⟩, ⟨rest.takeWhile Char.isWhitespace⟩,
                ⟨rest.dropWhile Char.isWhitespace⟩)
      | none => none
    else none

/-- `SubjectMaxLength.RE_REVERT = ^Revert ".*"$` from `validators/rules.py`. -/
def reRevertMatch (line : String) : Bool :=
  let cs := line.toList
  "Revert \"".toList.isPrefixOf cs && decide (9 ≤ cs.length) &&
    cs.getLast? == some '"'

/-- Strip a case-insensitive literal pattern (given in lowercase) from the
front of `cs`. -/
def dropPrefixCI (pat : List Char) (cs : List Char) : Option (List Char) :=
  match pat, cs with
  | [], rest => some rest
  | _ :: _, [] => none
  | p :: ps, c :: cs => if c.toLower = p then dropPrefixCI ps cs else none

/-- `BodyMaxLength.RE_URL = ^<?https?://\S+>?$` (IGNORECASE) from
`validators/rules.py`.  Since `>` is itself non-whitespace, `\S+>?`
accepts exactly the non-empty all-non-whitespace tails. -/
def reUrlMatch (line : String) : Bool :=
  let cs := line.toList
  let cs := match cs with
    | '<' :: rest => rest
    | _ => cs
  match dropPrefixCI "http".toList cs with
  | none => false
  | some rest =>
    let rest := match rest with
      | 's' :: r => r
      | 'S' :: r => r
      | _ => rest
    match dropPrefixCI "://".toList rest with
    | none => false
    | some tail => !tail.isEmpty && tail.all (fun c => !c.isWhitespace)

/-- `SubjectNoBugOrTask.regex = ^(bug|T?\d+)` (IGNORECASE), used through
`re.search`; the `^` anchor makes search equivalent to prefix matching. -/
def reSubjectBugOrTaskSearch (line : String) : Bool :=
  let cs := line.toList
  (match cs with
   | b :: u :: g :: _ => b.toLower == 'b' && u.toLower == 'u' && g.toLower == 'g'
   | _ => false) ||
  (match cs with
   | c :: rest =>
     c.isDigit ||
       ((c == 'T' || c == 't') &&
         (match rest with
          | d :: _ => d.isDigit
          | [] => false))
   | [] => false)

/-- `PhabricatorTaskIdExpected.RE_BUGID = ^T[0-9]+$`. -/
def reBugIdMatch (value : String) : Bool :=
  match value.toList with
  | 'T' :: ds => !ds.isEmpty && ds.all Char.isDigit
  | _ => false

/-- One character of the class `[a-f0-9]`. -/
def isLowerHexDigit (c : Char) : Bool :=
  c.isDigit || decide ('a' ≤ c ∧ c ≤ 'f')

/-- `ChangeIdExpected.RE_CHANGEID = ^I[a-f0-9]{40}$`. -/
def reChangeIdMatch (value : String) : Bool :=
  match value.toList with
  | 'I' :: ds => ds.length == 40 && ds.all isLowerHexDigit
  | _ => false

/-- Python `str.lower()` (characterwise ASCII lowering, matching the ASCII
reading of the regexes above). -/
def strToLower (s : String) : String := ⟨s.toList.map Char.toLower⟩

/-- `LineRule` subclasses and `CommitRule` subclasses from
`validators/rules.py` are modelled as plain functions; dataclass fields
become leading parameters. -/
def SubjectMaxLength.validate (lineno : Nat) (line : String)
    (context : MessageContext) : List ValidationFailure :=
  if context ≠ MessageContext.SUBJECT then []
  else if reRevertMatch line then []
  else if line.length > 80 then
    [⟨"S1", lineno, "Subject must be <=80 characters"⟩]
  else []

/-- `SubjectNoBugOrTask` (id "S2"). -/
def SubjectNoBugOrTask.validate (lineno : Nat) (line : String)
    (context : MessageContext) : List ValidationFailure :=
  if context ≠ MessageContext.SUBJECT then []
  else if reSubjectBugOrTaskSearch line then
    [⟨"S2", lineno, "Do not define bug in the subject"⟩]
  else []

/-- `BodyMaxLength` (id "B1"); the message comes from
`LineLengthRule.msg.format(line_len, max_len)`. -/
def BodyMaxLength.validate (lineno : Nat) (line : String)
    (context : MessageContext) : List ValidationFailure :=
  if context ≠ MessageContext.BODY then []
  else if reUrlMatch line then []
  else if line.length > 100 then
    [⟨"B1", lineno, "Line exceeds max length (" ++ toString line.length ++ ">100)"⟩]
  else []

/-- `TrailerNoBlankLines` (id "F1"). -/
def TrailerNoBlankLines.validate (lineno : Nat) (line : String)
    (context : MessageContext) : List ValidationFailure :=
  if context ≠ MessageContext.TRAILER then []
  else if line = "" then [⟨"F1", lineno, "Unexpected blank line"⟩]
  else []

/-- `TrailerInBody` (id "F2"); `expected` is its dataclass field (an empty
list models Python `None`/empty, both falsy). -/
def TrailerInBody.validate (expected : List String) (lineno : Nat)
    (line : String) (context : MessageContext) : List ValidationFailure :=
  if context ≠ MessageContext.BODY then []
  else
    match reTrailerMatch line with
    | none => []
    | some (name, _, _) =>
      let normalized := strToLower name
      if expected ≠ [] ∧ normalized ∉ expected then []
      else [⟨"F2", lineno, "Expected \x27" ++ name ++ ":\x27 to be in trailer"⟩]

/-- The fixup-table lookup `self.fixup[normalized_name]` used by
`ExpectedTrailers`, `PhabricatorTaskIdExpected` and `ChangeIdExpected`;
the dict is modelled as an association list. -/
def fixupName (fixup : List (String × String)) (normalized : String) : String :=
  match fixup.find? (fun p => p.1 == normalized) with
  | some p => p.2
  | none => normalized

/-- The dict comprehension `{trailer.lower(): trailer for trailer in
self.expected}` of `ExpectedTrailers.validate_trailer`, as a lookup. -/
def ExpectedTrailers.lookup (expected : List String) (normalized : String) :
    Option String :=
  expected.find? (fun t => strToLower t == normalized)

/-- `ExpectedTrailers` (ids "F3", "F4", "F5").  When the (fixed-up) name is
unrecognized outside TRAILER context the source returns before the "F4"/"F5"
checks; when it is unrecognized inside TRAILER context it yields "F3" and
falls through to the whitespace check. -/
def ExpectedTrailers.validate (expected : List String)
    (fixup : List (String × String)) (lineno : Nat) (line : String)
    (context : MessageContext) : List ValidationFailure :=
  match reTrailerMatch line with
  | none => []
  | some (name, ws, _) =>
    let normalized := fixupName fixup (strToLower name)
    let correct := ExpectedTrailers.lookup expected normalized
    if correct.isNone ∧ context ≠ MessageContext.TRAILER then []
    else
      (if correct.isNone then
        [⟨"F3", lineno,
          "Unexpected trailer \x27" ++ name ++ "\x27. Supported trailers: " ++
            String.intercalate ", " expected⟩]
       else []) ++
      (match correct with
       | some correct_name =>
         if correct_name ≠ name then
           [⟨"F4", lineno,
             "Use \x27" ++ correct_name ++ ":\x27 not \x27" ++ name ++ ":\x27"⟩]
         else []
       | none => []) ++
      (if ws ≠ " " then
        [⟨"F5", lineno, "Expected one space after \x27" ++ name ++ ":\x27"⟩]
       else [])

/-- `PhabricatorTaskIdExpected` (id "F6"); its `names` field is unused by the
source's `validate_trailer`, which hard-codes `"bug"`. -/
def PhabricatorTaskIdExpected.validate (fixup : List (String × String))
    (lineno : Nat) (line : String) (_context : MessageContext) :
    List ValidationFailure :=
  match reTrailerMatch line with
  | none => []
  | some (name, _, value) =>
    let normalized := fixupName fixup (strToLower name)
    if normalized = "bug" ∧ ¬reBugIdMatch value then
      [⟨"F6", lineno, "Bug: value must be a single phabricator task ID"⟩]
    else []

/-- `ChangeIdExpected` (id "F7"). -/
def ChangeIdExpected.validate (names : List String)
    (fixup : List (String × String)) (lineno : Nat) (line : String)
    (_context : MessageContext) : List ValidationFailure :=
  match reTrailerMatch line with
  | none => []
  | some (name, _, value) =>
    let normalized := fixupName fixup (strToLower name)
    if normalized ∈ names ∧ ¬reChangeIdMatch value then
      [⟨"F7", lineno, name ++ ": value must be a single Gerrit change id"⟩]
    else []

/-- `UnexpectedTrailerLine` (id "F8"). -/
def UnexpectedTrailerLine.validate (lineno : Nat) (line : String)
    (context : MessageContext) : List ValidationFailure :=
  if context ≠ MessageContext.TRAILER then []
  else if line = "" then []
  else if (reTrailerMatch line).isNone ∧ ¬reCherrypickMatch line then
    [⟨"F8", lineno, "Expected trailer line to follow format of \x27Name: ...\x27"⟩]
  else []

/-- `CommitSecondLineEmpty` (id "C1"). -/
def CommitSecondLineEmpty.validate (lines : List String) :
    List ValidationFailure :=
  if lines.length > 1 ∧ lines.getD 1 "" ≠ "" then
    [⟨"C1", 2, "Second line should be empty"⟩]
  else []

/-- `CommitMinLines` (id "C2"). -/
def CommitMinLines.validate (lines : List String) : List ValidationFailure :=
  if lines.length < 3 then
    [⟨"C2", lines.length, "Expected at least 3 lines"⟩]
  else []

/-- `CherryPickLast` (id "C3"). -/
def CherryPickLast.validate (lines : List String) : List ValidationFailure :=
  lines.enum.flatMap (fun p =>
    if reCherrypickMatch p.2 ∧ p.1 ≠ lines.length - 1 then
      [⟨"C3", p.1 + 1, "Cherry pick line is not the last line"⟩]
    else [])

/-- The loop of `ChangeIdRequired.validate`, over enumerated lines, carrying
the `changeid` state (Python `False` / first line number). -/
def ChangeIdRequired.scan (before : List String) :
    List (Nat × String) → Option Nat → List ValidationFailure × Option Nat
  | [], changeid => ([], changeid)
  | (i, line) :: rest, changeid =>
    let step : List ValidationFailure × Option Nat :=
      match reTrailerMatch line with
      | none => ([], changeid)
      | some (name, _, _) =>
        let normalized := strToLower name
        if normalized = "change-id" then
          match changeid with
          | none => ([], some (i + 1))
          | some c =>
            ([⟨"C4", i + 1, "Extra Change-Id found, first at " ++ toString c⟩],
             some c)
        else
          match changeid with
          | some c =>
            if before ≠ [] ∧ normalized ∈ before then
              ([⟨"C5", i + 1,
                 "Expected \x27" ++ name ++
                   ":\x27 to come before Change-Id on line " ++ toString c⟩],
               some c)
            else ([], some c)
          | none => ([], none)
    let next := ChangeIdRequired.scan before rest step.2
    (step.1 ++ next.1, next.2)

/-- `ChangeIdRequired` (ids "C4", "C5", "C6"). -/
def ChangeIdRequired.validate (before : List String) (lines : List String) :
    List ValidationFailure :=
  let r := ChangeIdRequired.scan before lines.enum none
  r.1 ++
    (match r.2 with
     | none => [⟨"C6", lines.length, "Expected Change-Id"⟩]
     | some _ => [])

/-- The trailer-name test of `RulesMessageValidator.get_context`:
`trailer_match and trailer_match.group("name").lower() in
self._expected_trailers`. -/
def trailerNameIn (expected : List String) (line : String) : Bool :=
  match reTrailerMatch line with
  | some (name, _, _) => decide (strToLower name ∈ expected)
  | none => false

/-- `RulesMessageValidator.get_context`.  The source keeps one mutable field
`self._message_context` and is queried once per index in increasing order;
`getContext expected lines n` is the value returned for query `n`, with the
previous state being the value for query `n - 1`. -/
def getContext (expected : List String) (lines : List String) :
    Nat → MessageContext
  | 0 => MessageContext.SUBJECT
  | n + 1 =>
    if expected = [] then MessageContext.BODY
    else if getContext expected lines n = MessageContext.TRAILER then
      MessageContext.TRAILER
    else if (trailerNameIn expected (lines.getD (n + 1) "") ||
             reCherrypickMatch (lines.getD (n + 1) "")) &&
            (lines.getD n "" == "") then
      MessageContext.TRAILER
    else MessageContext.BODY

/-- `RulesMessageValidator` configuration: its three constructor
parameters, with rules reduced to their `validate` functions. -/
structure RulesMessageValidator where
  line_rules : List (Nat → String → MessageContext → List ValidationFailure)
  commit_rules : List (List String → List ValidationFailure)
  expected_trailers : List String

/-- `RulesMessageValidator.check_line`. -/
def RulesMessageValidator.check_line (v : RulesMessageValidator)
    (lines : List String) (lineno : Nat) (line : String) :
    List ValidationFailure :=
  let context := getContext v.expected_trailers lines (lineno - 1)
  v.line_rules.flatMap (fun r => r lineno line context)

/-- `RulesMessageValidator.check_global`. -/
def RulesMessageValidator.check_global (v : RulesMessageValidator)
    (lines : List String) : List ValidationFailure :=
  v.commit_rules.flatMap (fun r => r lines)

/-- `MessageValidator.validate` from `validators/core.py`, specialized by
`RulesMessageValidator`: line checks over `enumerate(lines)` (1-indexed
line numbers), then the whole-message checks. -/
def RulesMessageValidator.validate (v : RulesMessageValidator)
    (lines : List String) : List ValidationFailure :=
  lines.enum.flatMap (fun p => v.check_line lines (p.1 + 1) p.2) ++
    v.check_global lines

/-- `EXPECTED_TRAILERS` from `validators/wikimedia.py`. -/
def EXPECTED_TRAILERS : List String :=
  ["Acked-by", "Bug", "Cc", "Change-Id", "Co-Authored-by", "Depends-On",
   "Hosts", "Change-Private", "Needed-By", "Reported-by", "Requested-by",
   "Reviewed-by", "Signed-off-by", "Suggested-by", "Tested-by", "Thanks"]

/-- `NORMALIZED_EXPECTED_TRAILERS` from `validators/wikimedia.py`. -/
def NORMALIZED_EXPECTED_TRAILERS : List String :=
  EXPECTED_TRAILERS.map strToLower

/-- `BEFORE_CHANGE_ID` from `validators/wikimedia.py`. -/
def BEFORE_CHANGE_ID : List String := ["bug", "closes", "fixes", "task"]

/-- `BAD_TRAILERS` from `validators/wikimedia.py` (dict as association
list, insertion order). -/
def BAD_TRAILERS : List (String × String) :=
  [("closes", "bug"), ("fixes", "bug"), ("task", "bug")]

/-- `GerritMessageValidator` from `validators/wikimedia.py`: the strict
profile, rules in construction order. -/
def GerritMessageValidator : RulesMessageValidator where
  line_rules :=
    [SubjectMaxLength.validate,
     SubjectNoBugOrTask.validate,
     BodyMaxLength.validate,
     TrailerInBody.validate
       (NORMALIZED_EXPECTED_TRAILERS ++ BAD_TRAILERS.map Prod.fst),
     TrailerNoBlankLines.validate,
     ExpectedTrailers.validate EXPECTED_TRAILERS BAD_TRAILERS,
     PhabricatorTaskIdExpected.validate BAD_TRAILERS,
     ChangeIdExpected.validate ["depends-on", "needed-by", "change-id"] [],
     UnexpectedTrailerLine.validate]
  commit_rules :=
    [CommitMinLines.validate,
     CommitSecondLineEmpty.validate,
     CherryPickLast.validate,
     ChangeIdRequired.validate BEFORE_CHANGE_ID]
  expected_trailers := NORMALIZED_EXPECTED_TRAILERS

/-- Stable insertion of `a` into `l`: `a` goes in front of the first
element `b` with `le a b`. -/
def orderedInsert (le : α → α → Bool) (a : α) : List α → List α
  | [] => [a]
  | b :: l => if le a b then a :: b :: l else b :: orderedInsert le a l

/-- Python `list.sort` (a stable ascending sort) modelled as stable
insertion sort. -/
def stableSort (le : α → α → Bool) : List α → List α
  | [] => []
  | a :: l => orderedInsert le a (stableSort le l)

/-- Python string comparison: lexicographic on code points. -/
def charListLe : List Char → List Char → Bool
  | [], _ => true
  | _ :: _, [] => false
  | a :: as, b :: bs =>
    if a.toNat < b.toNat then true
    else if b.toNat < a.toNat then false
    else charListLe as bs

/-- `a <= b` on Python strings. -/
def strLe (a b : String) : Bool := charListLe a.toList b.toList

/-- The key of `errors.sort(key=operator.attrgetter("rule_id"))`. -/
def ruleIdLe (a b : ValidationFailure) : Bool := strLe a.rule_id b.rule_id

/-- The key of `errors.sort(key=operator.attrgetter("lineno"))`. -/
def linenoLe (a b : ValidationFailure) : Bool := decide (a.lineno ≤ b.lineno)

/-- `lint_message` from `lint.py`: collect, then sort by rule id, then sort
(stably) by line number. -/
def lint_message (v : RulesMessageValidator) (lines : List String) :
    List ValidationFailure :=
  stableSort linenoLe (stableSort ruleIdLe (v.validate lines))

/-- `check_message` from `lint.py`, reduced to its exit status: `1` when
any error was found, else `0` (printing is I/O outside the core). -/
def check_message (v : RulesMessageValidator) (lines : List String) : Nat :=
  if lint_message v lines ≠ [] then 1 else 0

theorem orderedInsert_length (le : α → α → Bool) (a : α) (l : List α) :
    (orderedInsert le a l).length = l.length + 1 := by
  induction l with
  | nil => rfl
  | cons b l ih => simp only [orderedInsert]; split <;> simp [ih]

theorem stableSort_length (le : α → α → Bool) (l : List α) :
    (stableSort le l).length = l.length := by
  induction l with
  | nil => rfl
  | cons a l ih => simp [stableSort, orderedInsert_length, ih]

/-- Lexicographic comparison of violations with rule id as primary and line
number as secondary key (both ascending). -/
def ruleIdLinenoLexLe (a b : ValidationFailure) : Bool :=
  if a.rule_id = b.rule_id then decide (a.lineno ≤ b.lineno)
  else strLe a.rule_id b.rule_id

/-- C1, counterexample: on the message `["T123 fix", "", "body"]` the driver
emits `S2` at line 1 and `C6` at line 3, and `lint_message` returns them in
that order, which is NOT sorted primarily by rule identifier
(`"C6" < "S2"`): the final Python sort key is the line number, so the line
number, not the rule id, is the primary key of the output. -/
theorem lint_message_not_sorted_by_rule_id_first :
    lint_message GerritMessageValidator ["T123 fix", "", "body"] =
      [⟨"S2", 1, "Do not define bug in the subject"⟩,
       ⟨"C6", 3, "Expected Change-Id"⟩] ∧
    ruleIdLinenoLexLe ⟨"S2", 1, "Do not define bug in the subject"⟩
        ⟨"C6", 3, "Expected Change-Id"⟩ = false := by decide

/-- C5, counterexample: a single-letter name followed by a colon does not
parse as a footer line — `RE_TRAILER` requires `[a-z]\S+` before the colon,
i.e. at least two name characters. -/
theorem reTrailerMatch_single_letter_name_none :
    reTrailerMatch "X: y" = none := by decide

/-- C6: for a SUBJECT-context line, the subject-length rule emits exactly one
violation when the line is longer than 80 characters and is not a
quote-wrapped `Revert "..."` subject, and none otherwise. -/
theorem SubjectMaxLength_validate_subject_eq (lineno : Nat) (line : String) :
    SubjectMaxLength.validate lineno line MessageContext.SUBJECT =
      (if line.length > 80 ∧ reRevertMatch line = false then
        [⟨"S1", lineno, "Subject must be <=80 characters"⟩]
      else []) := by
  cases h : reRevertMatch line <;> by_cases h2 : line.length > 80 <;>
    simp [SubjectMaxLength.validate, h, h2]

/-- C7: for a BODY-context line, the body-length rule emits exactly one
violation when the line is longer than 100 characters and is not a bare
URL, and none otherwise. -/
theorem BodyMaxLength_validate_body_eq (lineno : Nat) (line : String) :
    BodyMaxLength.validate lineno line MessageContext.BODY =
      (if line.length > 100 ∧ reUrlMatch line = false then
        [⟨"B1", lineno,
          "Line exceeds max length (" ++ toString line.length ++ ">100)"⟩]
      else []) := by
  cases h : reUrlMatch line <;> by_cases h2 : line.length > 100 <;>
    simp [BodyMaxLength.validate, h, h2]

/-- C10: `SubjectNoBugOrTask` applies no word boundary after its prefix
patterns: a subject that merely begins with the letters "bug" in any case
(such as "bugfix: resolve crash"), or with a digit, or with `T`/`t`
followed by a digit, always triggers "S2". -/
theorem SubjectNoBugOrTask_prefix_triggers :
    (∀ (lineno : Nat) (b u g : Char) (rest : List Char),
       b.toLower = 'b' → u.toLower = 'u' → g.toLower = 'g' →
       SubjectNoBugOrTask.validate lineno ⟨b :: u :: g :: rest⟩
           MessageContext.SUBJECT =
         [⟨"S2", lineno, "Do not define bug in the subject"⟩]) ∧
    (∀ (lineno : Nat) (d : Char) (rest : List Char), d.isDigit = true →
       SubjectNoBugOrTask.validate lineno ⟨d :: rest⟩ MessageContext.SUBJECT =
         [⟨"S2", lineno, "Do not define bug in the subject"⟩]) ∧
    (∀ (lineno : Nat) (t d : Char) (rest : List Char),
       (t = 'T' ∨ t = 't') → d.isDigit = true →
       SubjectNoBugOrTask.validate lineno ⟨t :: d :: rest⟩
           MessageContext.SUBJECT =
         [⟨"S2", lineno, "Do not define bug in the subject"⟩]) ∧
    SubjectNoBugOrTask.validate 1 "bugfix: resolve crash"
        MessageContext.SUBJECT =
      [⟨"S2", 1, "Do not define bug in the subject"⟩] := by
  refine ⟨?_, ?_, ?_, by decide⟩
  · intro lineno b u g rest hb hu hg
    simp [SubjectNoBugOrTask.validate, reSubjectBugOrTaskSearch, String.toList,
      hb, hu, hg]
  · intro lineno d rest hd
    simp [SubjectNoBugOrTask.validate, reSubjectBugOrTaskSearch, String.toList,
      hd]
  · intro lineno t d rest ht hd
    rcases ht with ht | ht <;>
      simp [SubjectNoBugOrTask.validate, reSubjectBugOrTaskSearch,
        String.toList, ht, hd]

/-- Closed instance of `SubjectNoBugOrTask_prefix_triggers`. -/
theorem SubjectNoBugOrTask_prefix_triggers_witness :
    SubjectNoBugOrTask.validate 3 ⟨'B' :: 'U' :: 'g' :: "zz".toList⟩
        MessageContext.SUBJECT =
      [⟨"S2", 3, "Do not define bug in the subject"⟩] ∧
    SubjectNoBugOrTask.validate 4 ⟨'7' :: "b".toList⟩ MessageContext.SUBJECT =
      [⟨"S2", 4, "Do not define bug in the subject"⟩] ∧
    SubjectNoBugOrTask.validate 5 ⟨'t' :: '9' :: "c".toList⟩
        MessageContext.SUBJECT =
      [⟨"S2", 5, "Do not define bug in the subject"⟩] :=
  ⟨SubjectNoBugOrTask_prefix_triggers.1 3 'B' 'U' 'g' "zz".toList
     (by decide) (by decide) (by decide),
   SubjectNoBugOrTask_prefix_triggers.2.1 4 '7' "b".toList (by decide),
   SubjectNoBugOrTask_prefix_triggers.2.2.1 5 't' '9' "c".toList
     (Or.inr rfl) (by decide)⟩

/-- C9: `check_message` returns `1` when at least one violation exists
across all configured rules and `0` otherwise. -/
theorem check_message_exit_iff_violations (v : RulesMessageValidator)
    (lines : List String) :
    (check_message v lines = 0 ∨ check_message v lines = 1) ∧
    (check_message v lines ≠ 0 ↔ v.validate lines ≠ []) := by
  have hlen : (lint_message v lines).length = (v.validate lines).length := by
    simp [lint_message, stableSort_length]
  have hiff : lint_message v lines = [] ↔ v.validate lines = [] := by
    rw [← List.length_eq_zero, ← List.length_eq_zero, hlen]
  constructor
  · unfold check_message; split <;> simp
  · unfold check_message
    by_cases hc : lint_message v lines = []
    · simp [hc, hiff.mp hc]
    · have : v.validate lines ≠ [] := fun h => hc (hiff.mpr h)
      simp [hc, this]

theorem getContext_trailer_expected_ne_nil (expected lines : List String)
    (i : Nat) (h : getContext expected lines i = MessageContext.TRAILER) :
    expected ≠ [] := by
  intro he
  cases i with
  | zero => simp [getContext] at h
  | succ n => rw [getContext] at h; simp [he] at h

theorem getContext_trailer_mono (expected lines : List String) (i j : Nat)
    (hij : i ≤ j) (hi : getContext expected lines i = MessageContext.TRAILER) :
    getContext expected lines j = MessageContext.TRAILER := by
  induction j with
  | zero =>
    have : i = 0 := Nat.le_zero.mp hij
    subst this; exact hi
  | succ n ih =>
    by_cases h : i = n + 1
    · subst h; exact hi
    · have hle : i ≤ n := Nat.lt_succ_iff.mp (Nat.lt_of_le_of_ne hij h)
      have hn := ih hle
      have hne : expected ≠ [] :=
        getContext_trailer_expected_ne_nil expected lines n hn
      rw [getContext]
      simp [hn, hne]

/-- C2: while the classifier has not yet entered the trailer context and the
recognized-footer set is non-empty, a queried index `n + 1` is classified
TRAILER exactly when the current line is a recognized trailer line or a
cherry-pick marker and the previous line is blank — in which case every
later index is TRAILER as well — and is classified BODY otherwise.  The
bound `n + 1 < lines.length` records the classifier contract (queries range
over the message's indices). -/
theorem getContext_footer_entry_iff (expected lines : List String) (n : Nat)
    (hlen : n + 1 < lines.length) (hne : expected ≠ [])
    (hprev : getContext expected lines n ≠ MessageContext.TRAILER) :
    ((getContext expected lines (n + 1) = MessageContext.TRAILER) ↔
      ((trailerNameIn expected (lines.getD (n + 1) "") = true ∨
        reCherrypickMatch (lines.getD (n + 1) "") = true) ∧
       lines.getD n "" = "")) ∧
    (¬ ((trailerNameIn expected (lines.getD (n + 1) "") = true ∨
         reCherrypickMatch (lines.getD (n + 1) "") = true) ∧
        lines.getD n "" = "") →
      getContext expected lines (n + 1) = MessageContext.BODY) ∧
    (getContext expected lines (n + 1) = MessageContext.TRAILER →
      ∀ j, n + 1 ≤ j →
        getContext expected lines j = MessageContext.TRAILER) := by
  have hstep : getContext expected lines (n + 1) =
      if (trailerNameIn expected (lines.getD (n + 1) "") ||
          reCherrypickMatch (lines.getD (n + 1) "")) &&
         (lines.getD n "" == "") then MessageContext.TRAILER
      else MessageContext.BODY := by
    rw [getContext]
    simp [hne, hprev]
  have hbool : ((trailerNameIn expected (lines.getD (n + 1) "") ||
      reCherrypickMatch (lines.getD (n + 1) "")) &&
      (lines.getD n "" == "")) = true ↔
      ((trailerNameIn expected (lines.getD (n + 1) "") = true ∨
        reCherrypickMatch (lines.getD (n + 1) "") = true) ∧
       lines.getD n "" = "") := by
    simp only [Bool.and_eq_true, Bool.or_eq_true, beq_iff_eq]
  refine ⟨?_, ?_, fun h j hj => getContext_trailer_mono expected lines _ j hj h⟩
  · rw [hstep]
    split
    · next hB => exact iff_of_true rfl (hbool.mp hB)
    · next hB => exact iff_of_false (by decide) (fun hc => hB (hbool.mpr hc))
  · intro hcond
    rw [hstep]
    have hB : ((trailerNameIn expected (lines.getD (n + 1) "") ||
        reCherrypickMatch (lines.getD (n + 1) "")) &&
        (lines.getD n "" == "")) = false :=
      Bool.not_eq_true _ |>.mp (fun hB => hcond (hbool.mp hB))
    rw [hB]
    simp

/-- Closed instance of `getContext_footer_entry_iff`. -/
theorem getContext_footer_entry_iff_witness :
    getContext ["bug"] ["s", "", "Bug: T1", "x"] 2 = MessageContext.TRAILER ∧
    getContext ["bug"] ["s", "", "Bug: T1", "x"] 3 = MessageContext.TRAILER :=
  have h := getContext_footer_entry_iff ["bug"] ["s", "", "Bug: T1", "x"] 1
    (by decide) (by decide) (by decide)
  have h2 : getContext ["bug"] ["s", "", "Bug: T1", "x"] 2 =
      MessageContext.TRAILER := h.1.mpr (by decide)
  ⟨h2, h.2.2 h2 3 (by decide)⟩

/-- C3: index 0 is always SUBJECT; the trailer context is monotone (once
TRAILER, every later index is TRAILER); and with an empty recognized-footer
set no index is ever TRAILER — every index past 0 is BODY. -/
theorem getContext_invariants (expected lines : List String) :
    getContext expected lines 0 = MessageContext.SUBJECT ∧
    (∀ i j, i ≤ j → getContext expected lines i = MessageContext.TRAILER →
       getContext expected lines j = MessageContext.TRAILER) ∧
    (expected = [] →
      ∀ i, getContext expected lines i ≠ MessageContext.TRAILER ∧
        (1 ≤ i → getContext expected lines i = MessageContext.BODY)) := by
  refine ⟨rfl,
    fun i j hij hi => getContext_trailer_mono expected lines i j hij hi, ?_⟩
  intro he i
  cases i with
  | zero => exact ⟨by simp [getContext], by omega⟩
  | succ n =>
    have hb : getContext expected lines (n + 1) = MessageContext.BODY := by
      rw [getContext]; simp [he]
    exact ⟨by simp [hb], fun _ => hb⟩

/-- Closed instance of `getContext_invariants`. -/
theorem getContext_invariants_witness :
    getContext ["bug"] ["s", "", "Bug: T1", "x"] 0 = MessageContext.SUBJECT ∧
    getContext ["bug"] ["s", "", "Bug: T1", "x"] 3 = MessageContext.TRAILER ∧
    getContext [] ["s", "Bug: T1"] 1 = MessageContext.BODY :=
  ⟨(getContext_invariants ["bug"] ["s", "", "Bug: T1", "x"]).1,
   (getContext_invariants ["bug"] ["s", "", "Bug: T1", "x"]).2.1 2 3
     (by decide) (by decide),
   ((getContext_invariants [] ["s", "Bug: T1"]).2.2 rfl 1).2 (by decide)⟩

theorem splitTrailer_sound (cs : List Char) :
    ∀ nm rest, splitTrailer cs = some (nm, rest) →
      cs = nm ++ ':' :: rest ∧ ∀ x ∈ nm, x.isWhitespace = false := by
  induction cs with
  | nil => intro nm rest h; simp [splitTrailer] at h
  | cons c cs ih =>
    intro nm rest h
    rw [splitTrailer] at h
    by_cases hw : c.isWhitespace
    · rw [if_pos hw] at h; cases h
    · rw [if_neg hw] at h
      rcases hsp : splitTrailer cs with _ | ⟨nm', rest'⟩ <;> rw [hsp] at h
      · by_cases hc : c = ':'
        · rw [if_pos hc] at h
          simp only [Option.some.injEq, Prod.mk.injEq] at h
          obtain ⟨h1, h2⟩ := h
          subst h1; subst h2; subst hc
          exact ⟨by simp, by simp⟩
        · rw [if_neg hc] at h; cases h
      · simp only [Option.some.injEq, Prod.mk.injEq] at h
        obtain ⟨h1, h2⟩ := h
        subst h1; subst h2
        obtain ⟨ih1, ih2⟩ := ih nm' rest' hsp
        refine ⟨by simp [ih1], ?_⟩
        intro x hx
        rcases List.mem_cons.mp hx with rfl | hx
        · exact Bool.not_eq_true _ |>.mp hw
        · exact ih2 x hx

theorem splitTrailer_complete (rest : List Char) : ∀ nm : List Char,
    (∀ x ∈ nm, x.isWhitespace = false) →
    ∃ nm' rest', splitTrailer (nm ++ ':' :: rest) = some (nm', rest') := by
  intro nm
  induction nm with
  | nil =>
    intro _
    rw [List.nil_append, splitTrailer]
    rcases h : splitTrailer rest with _ | ⟨nm', rest'⟩
    · exact ⟨[], rest, by simp [h]⟩
    · exact ⟨':' :: nm', rest', by simp [h]⟩
  | cons d nm ih =>
    intro hall
    have hd : d.isWhitespace = false := hall d (by simp)
    obtain ⟨nm', rest', h⟩ := ih (fun x hx => hall x (by simp [hx]))
    refine ⟨d :: nm', rest', ?_⟩
    rw [List.cons_append, splitTrailer]
    simp [hd, h]

/-- C5, amended: the footer grammar succeeds exactly on lines of the shape
`name ++ ":" ++ whitespace* ++ value` where the name starts with a letter,
contains no whitespace and is at least TWO characters long (`[a-z]\S+`),
so single-letter names are rejected. -/
theorem reTrailerMatch_isSome_iff (line : String) :
    (reTrailerMatch line).isSome = true ↔
      ∃ (c : Char) (nm ws v : List Char),
        line.toList = c :: (nm ++ ':' :: (ws ++ v)) ∧
        c.isAlpha = true ∧ nm ≠ [] ∧
        (∀ x ∈ nm, x.isWhitespace = false) ∧
        (∀ x ∈ ws, x.isWhitespace = true) := by
  constructor
  · intro h
    unfold reTrailerMatch at h
    split at h
    · cases h
    · rename_i c cs heq
      split at h
      · rename_i ha
        split at h
        · rename_i nm rest hsp
          split at h
          · cases h
          · rename_i hnil
            obtain ⟨hcs2, hnm⟩ := splitTrailer_sound cs nm rest hsp
            refine ⟨c, nm, rest.takeWhile Char.isWhitespace,
              rest.dropWhile Char.isWhitespace, ?_, ha, hnil, hnm, ?_⟩
            · rw [heq, hcs2, List.takeWhile_append_dropWhile]
            · intro x hx; exact List.mem_takeWhile_imp hx
        · cases h
      · cases h
  · rintro ⟨c, nm, ws, v, hline, ha, hnil, hnm, _⟩
    rcases nm with _ | ⟨d, nm₀⟩
    · exact absurd rfl hnil
    obtain ⟨nm', rest', hsp⟩ :=
      splitTrailer_complete (ws ++ v) nm₀ (fun x hx => hnm x (by simp [hx]))
    have hd : d.isWhitespace = false := hnm d (by simp)
    have hsp2 : splitTrailer ((d :: nm₀) ++ ':' :: (ws ++ v)) =
        some (d :: nm', rest') := by
      rw [List.cons_append, splitTrailer]
      simp [hd, hsp]
    unfold reTrailerMatch
    simp only [hline]
    rw [if_pos ha, hsp2]
    simp

/-- Whether a line is a footer-grammar match whose normalized name is the
unique-id footer name `change-id`. -/
def isChangeIdLine (line : String) : Bool :=
  match reTrailerMatch line with
  | some (name, _, _) => strToLower name == "change-id"
  | none => false

/-- Modelled on the claim wording: the 1-indexed line number of the first
unique-id footer line (the "recorded" occurrence). -/
def firstChangeId (lines : List String) : Option Nat :=
  (lines.findIdx? isChangeIdLine).map (fun i => i + 1)

/-- Declarative per-line behaviour of the unique-change-id rule, relative to
the recorded first occurrence `first`: a later id footer is an extra
(C4 naming `first`); a must-precede footer after the id is an ordering
violation (C5 naming `first`). -/
def changeIdSpecLine (before : List String) (first : Nat)
    (p : Nat × String) : List ValidationFailure :=
  match reTrailerMatch p.2 with
  | none => []
  | some (name, _, _) =>
    let normalized := strToLower name
    if normalized = "change-id" then
      if first < p.1 + 1 then
        [⟨"C4", p.1 + 1, "Extra Change-Id found, first at " ++ toString first⟩]
      else []
    else if before ≠ [] ∧ normalized ∈ before ∧ first < p.1 + 1 then
      [⟨"C5", p.1 + 1,
        "Expected \x27" ++ name ++ ":\x27 to come before Change-Id on line "
          ++ toString first⟩]
    else []

/-- A declarative rendering of the whole unique-change-id rule, following
the claim: per-line violations relative to the first recorded occurrence
when one exists, and the missing-id violation at the last line (line number
`lines.length`) otherwise. -/
def ChangeIdRequiredSpec (before : List String) (lines : List String) :
    List ValidationFailure :=
  (match firstChangeId lines with
   | none => []
   | some first => lines.enum.flatMap (changeIdSpecLine before first)) ++
  (match firstChangeId lines with
   | none => [⟨"C6", lines.length, "Expected Change-Id"⟩]
   | some _ => [])

/-- Per-line output of the scan once the id has been recorded at line `c`:
position no longer matters. -/
def postIdLine (before : List String) (c : Nat) (p : Nat × String) :
    List ValidationFailure :=
  match reTrailerMatch p.2 with
  | none => []
  | some (name, _, _) =>
    let normalized := strToLower name
    if normalized = "change-id" then
      [⟨"C4", p.1 + 1, "Extra Change-Id found, first at " ++ toString c⟩]
    else if before ≠ [] ∧ normalized ∈ before then
      [⟨"C5", p.1 + 1,
        "Expected \x27" ++ name ++ ":\x27 to come before Change-Id on line "
          ++ toString c⟩]
    else []

theorem changeIdScan_some (before : List String) (c : Nat) :
    ∀ (l : List String) (k : Nat),
      ChangeIdRequired.scan before (List.enumFrom k l) (some c) =
        ((List.enumFrom k l).flatMap (postIdLine before c), some c) := by
  intro l
  induction l with
  | nil => intro k; simp [ChangeIdRequired.scan]
  | cons x l ih =>
    intro k
    rw [List.enumFrom, ChangeIdRequired.scan]
    rcases h : reTrailerMatch x with _ | ⟨name, ws, value⟩
    · simp [h, ih (k + 1), postIdLine]
    · by_cases hcid : strToLower name = "change-id"
      · simp [h, hcid, ih (k + 1), postIdLine]
      · by_cases hbefore : before ≠ [] ∧ strToLower name ∈ before
        · simp [h, hcid, hbefore, ih (k + 1), postIdLine]
        · simp [h, hcid, hbefore, ih (k + 1), postIdLine]

theorem changeIdSpecLine_eq_postIdLine (before : List String) (first : Nat)
    (p : Nat × String) (h : first ≤ p.1) :
    changeIdSpecLine before first p = postIdLine before first p := by
  unfold changeIdSpecLine postIdLine
  rcases hm : reTrailerMatch p.2 with _ | ⟨name, ws, value⟩
  · rfl
  · have hlt : first < p.1 + 1 := Nat.lt_succ_of_le h
    by_cases hcid : strToLower name = "change-id"
    · simp [hcid, hlt]
    · by_cases hbefore : before ≠ [] ∧ strToLower name ∈ before
      · simp [hcid, hbefore, hlt]
      · simp [hcid, hbefore, hlt]

theorem changeIdScan_none (before : List String) :
    ∀ (l : List String) (k : Nat),
      ChangeIdRequired.scan before (List.enumFrom k l) none =
        (match List.findIdx? isChangeIdLine l with
         | none => (([] : List ValidationFailure), (none : Option Nat))
         | some j =>
           ((List.enumFrom k l).flatMap (changeIdSpecLine before (k + j + 1)),
            some (k + j + 1))) := by
  intro l
  induction l with
  | nil => intro k; simp [ChangeIdRequired.scan, List.findIdx?]
  | cons x l ih =>
    intro k
    rw [List.enumFrom, List.findIdx?_cons, List.findIdx?_succ]
    rcases h : reTrailerMatch x with _ | ⟨name, ws, value⟩
    · have hx : isChangeIdLine x = false := by simp [isChangeIdLine, h]
      have hstep : ChangeIdRequired.scan before
          ((k, x) :: List.enumFrom (k + 1) l) none =
          ChangeIdRequired.scan before (List.enumFrom (k + 1) l) none := by
        rw [ChangeIdRequired.scan]
        simp [h]
      rw [hstep, ih (k + 1), hx]
      rcases hf : List.findIdx? isChangeIdLine l with _ | j
      · simp
      · have harith : k + 1 + j + 1 = k + (j + 1) + 1 := by omega
        have hfirst : changeIdSpecLine before (k + (j + 1) + 1) (k, x) = [] := by
          simp [changeIdSpecLine, h]
        rw [show Option.map (fun i => i + 1) (some j) = some (j + 1) from rfl,
          if_neg (by decide : ¬ (false = true))]
        simp only [harith, List.flatMap_cons, hfirst, List.nil_append]
    · by_cases hcid : strToLower name = "change-id"
      · have hx : isChangeIdLine x = true := by simp [isChangeIdLine, h, hcid]
        have hstep : ChangeIdRequired.scan before
            ((k, x) :: List.enumFrom (k + 1) l) none =
            ChangeIdRequired.scan before (List.enumFrom (k + 1) l)
              (some (k + 1)) := by
          rw [ChangeIdRequired.scan]
          simp [h, hcid]
        rw [hstep, changeIdScan_some before (k + 1) l (k + 1), hx]
        have hfirst : changeIdSpecLine before (k + 1) (k, x) = [] := by
          simp [changeIdSpecLine, h, hcid]
        have hcong : (List.enumFrom (k + 1) l).flatMap
            (changeIdSpecLine before (k + 1)) =
            (List.enumFrom (k + 1) l).flatMap (postIdLine before (k + 1)) := by
          refine List.flatMap_congr (fun p hp => ?_)
          exact changeIdSpecLine_eq_postIdLine before (k + 1) p
            (List.mem_enumFrom hp).1
        simp [hfirst, hcong]
      · have hx : isChangeIdLine x = false := by
          simp [isChangeIdLine, h, hcid]
        have hstep : ChangeIdRequired.scan before
            ((k, x) :: List.enumFrom (k + 1) l) none =
            ChangeIdRequired.scan before (List.enumFrom (k + 1) l) none := by
          rw [ChangeIdRequired.scan]
          simp [h, hcid]
        rw [hstep, ih (k + 1), hx]
        rcases hf : List.findIdx? isChangeIdLine l with _ | j
        · simp
        · have harith : k + 1 + j + 1 = k + (j + 1) + 1 := by omega
          have hfirst : changeIdSpecLine before (k + (j + 1) + 1) (k, x) = [] := by
            have hlt : ¬ (k + (j + 1) + 1 < k + 1) := by omega
            simp [changeIdSpecLine, h, hcid, hlt]
          rw [show Option.map (fun i => i + 1) (some j) = some (j + 1) from rfl,
            if_neg (by decide : ¬ (false = true))]
          simp only [harith, List.flatMap_cons, hfirst, List.nil_append]

/-- C4: the unique-change-id message rule equals its declarative
specification: the first id footer is the reference point, every later id
footer yields "C4" naming it, every must-precede footer after it yields
"C5" naming it, and a missing id yields "C6" located at the last line. -/
theorem ChangeIdRequired_validate_eq_spec (before lines : List String) :
    ChangeIdRequired.validate before lines =
      ChangeIdRequiredSpec before lines := by
  unfold ChangeIdRequired.validate ChangeIdRequiredSpec firstChangeId
  have h := changeIdScan_none before lines 0
  have henum : lines.enum = List.enumFrom 0 lines := rfl
  rcases hf : List.findIdx? isChangeIdLine lines with _ | j
  · rw [hf] at h
    rw [henum, h]
    simp [hf]
  · rw [hf] at h
    rw [henum, h]
    have : (0 : Nat) + j + 1 = j + 1 := by omega
    simp [hf, this]

theorem mem_orderedInsert (le : α → α → Bool) (a x : α) (l : List α) :
    x ∈ orderedInsert le a l ↔ x = a ∨ x ∈ l := by
  induction l with
  | nil => simp [orderedInsert]
  | cons b l ih =>
    rw [orderedInsert]
    split
    · simp only [List.mem_cons]
    · simp only [List.mem_cons, ih]
      tauto

theorem mem_stableSort (le : α → α → Bool) (x : α) (l : List α) :
    x ∈ stableSort le l ↔ x ∈ l := by
  induction l with
  | nil => simp [stableSort]
  | cons a l ih =>
    rw [stableSort, mem_orderedInsert]
    simp [ih]

theorem pairwise_trivial (l : List α) : l.Pairwise (fun _ _ => True) := by
  induction l with
  | nil => exact List.Pairwise.nil
  | cons a l ih => exact List.Pairwise.cons (fun _ _ => trivial) ih

/-- Inserting `a` into a list that is sorted by `le₂` with ties respecting
`s` keeps that shape, provided `s a b` holds towards every element. -/
theorem pairwise_orderedInsert (le₂ : α → α → Bool) (s : α → α → Prop)
    (total₂ : ∀ a b, le₂ a b = true ∨ le₂ b a = true)
    (trans₂ : ∀ a b c, le₂ a b = true → le₂ b c = true → le₂ a c = true)
    (a : α) (m : List α)
    (hm : m.Pairwise (fun x y => le₂ x y = true ∧ (le₂ y x = true → s x y)))
    (hs : ∀ b ∈ m, s a b) :
    (orderedInsert le₂ a m).Pairwise
      (fun x y => le₂ x y = true ∧ (le₂ y x = true → s x y)) := by
  induction m with
  | nil => simp [orderedInsert]
  | cons b m ih =>
    rw [orderedInsert]
    obtain ⟨hb, hmtail⟩ := List.pairwise_cons.mp hm
    by_cases hab : le₂ a b = true
    · rw [if_pos hab]
      refine List.Pairwise.cons ?_ hm
      intro c hc
      rcases List.mem_cons.mp hc with rfl | hc
      · exact ⟨hab, fun _ => hs c (by simp)⟩
      · exact ⟨trans₂ a b c hab (hb c hc).1, fun _ => hs c (by simp [hc])⟩
    · rw [if_neg hab]
      refine List.Pairwise.cons ?_ (ih hmtail (fun c hc => hs c (by simp [hc])))
      intro c hc
      rcases (mem_orderedInsert le₂ a c m).mp hc with hca | hc
      · rw [hca]
        exact ⟨(total₂ a b).resolve_left hab, fun hab' => absurd hab' hab⟩
      · exact hb c hc

/-- Stability of `stableSort`: sorting a list that is pairwise `s` by the
(total, transitive) boolean key `le₂` yields a list sorted by `le₂` in which
ties are still pairwise `s`. -/
theorem pairwise_stableSort (le₂ : α → α → Bool) (s : α → α → Prop)
    (total₂ : ∀ a b, le₂ a b = true ∨ le₂ b a = true)
    (trans₂ : ∀ a b c, le₂ a b = true → le₂ b c = true → le₂ a c = true)
    (l : List α) (hl : l.Pairwise s) :
    (stableSort le₂ l).Pairwise
      (fun x y => le₂ x y = true ∧ (le₂ y x = true → s x y)) := by
  induction l with
  | nil => simp [stableSort]
  | cons a l ih =>
    rw [stableSort]
    obtain ⟨ha, hl'⟩ := List.pairwise_cons.mp hl
    exact pairwise_orderedInsert le₂ s total₂ trans₂ a _ (ih hl')
      (fun b hb => ha b ((mem_stableSort le₂ b l).mp hb))

theorem charListLe_cons_iff (a b : Char) (as bs : List Char) :
    charListLe (a :: as) (b :: bs) = true ↔
      a.toNat < b.toNat ∨ (a.toNat = b.toNat ∧ charListLe as bs = true) := by
  rw [charListLe]
  rcases Nat.lt_trichotomy a.toNat b.toNat with h | h | h
  · simp [h]
  · have h1 : ¬ a.toNat < b.toNat := by omega
    have h2 : ¬ b.toNat < a.toNat := by omega
    simp [h1, h2, h]
  · have h1 : ¬ a.toNat < b.toNat := by omega
    have h2 : a.toNat ≠ b.toNat := by omega
    simp [h1, h, h2]

theorem charListLe_total : ∀ as bs : List Char,
    charListLe as bs = true ∨ charListLe bs as = true := by
  intro as
  induction as with
  | nil => intro bs; left; rfl
  | cons a as ih =>
    intro bs
    cases bs with
    | nil => right; rfl
    | cons b bs =>
      rw [charListLe_cons_iff, charListLe_cons_iff]
      rcases Nat.lt_trichotomy a.toNat b.toNat with h | h | h
      · exact Or.inl (Or.inl h)
      · rcases ih bs with hh | hh
        · exact Or.inl (Or.inr ⟨h, hh⟩)
        · exact Or.inr (Or.inr ⟨h.symm, hh⟩)
      · exact Or.inr (Or.inl h)

theorem charListLe_trans : ∀ as bs cs : List Char,
    charListLe as bs = true → charListLe bs cs = true →
      charListLe as cs = true := by
  intro as
  induction as with
  | nil => intros; rfl
  | cons a as ih =>
    intro bs cs h1 h2
    cases bs with
    | nil => simp [charListLe] at h1
    | cons b bs =>
      cases cs with
      | nil => simp [charListLe] at h2
      | cons c cs =>
        rw [charListLe_cons_iff] at h1 h2 ⊢
        rcases h1 with h1 | ⟨h1e, h1r⟩ <;> rcases h2 with h2 | ⟨h2e, h2r⟩
        · exact Or.inl (by omega)
        · exact Or.inl (by omega)
        · exact Or.inl (by omega)
        · exact Or.inr ⟨by omega, ih bs cs h1r h2r⟩

theorem ruleIdLe_total (a b : ValidationFailure) :
    ruleIdLe a b = true ∨ ruleIdLe b a = true :=
  charListLe_total a.rule_id.toList b.rule_id.toList

theorem ruleIdLe_trans (a b c : ValidationFailure) :
    ruleIdLe a b = true → ruleIdLe b c = true → ruleIdLe a c = true :=
  charListLe_trans a.rule_id.toList b.rule_id.toList c.rule_id.toList

theorem linenoLe_total (a b : ValidationFailure) :
    linenoLe a b = true ∨ linenoLe b a = true := by
  simp only [linenoLe, decide_eq_true_eq]
  omega

theorem linenoLe_trans (a b c : ValidationFailure) :
    linenoLe a b = true → linenoLe b c = true → linenoLe a c = true := by
  simp only [linenoLe, decide_eq_true_eq]
  omega

/-- Sorted with line number as primary key and rule id as secondary key. -/
def byLinenoThenRuleId (a b : ValidationFailure) : Prop :=
  a.lineno < b.lineno ∨
    (a.lineno = b.lineno ∧ strLe a.rule_id b.rule_id = true)

/-- C1, amended: the output of `lint_message` is sorted primarily by LINE
NUMBER and secondarily by rule identifier (both ascending), regardless of
rule evaluation order — the final stable Python sort uses `lineno` as key,
so it is the primary one. -/
theorem lint_message_sorted_by_lineno_then_rule_id
    (v : RulesMessageValidator) (lines : List String) :
    (lint_message v lines).Pairwise byLinenoThenRuleId := by
  unfold lint_message
  have h1 : (stableSort ruleIdLe (v.validate lines)).Pairwise
      (fun x y => ruleIdLe x y = true) := by
    have h := pairwise_stableSort ruleIdLe (fun _ _ => True)
      ruleIdLe_total ruleIdLe_trans (v.validate lines)
      (pairwise_trivial _)
    exact h.imp (fun h => h.1)
  have h2 := pairwise_stableSort linenoLe (fun x y => ruleIdLe x y = true)
    linenoLe_total linenoLe_trans _ h1
  refine h2.imp ?_
  rintro a b ⟨hle, htie⟩
  have hab : a.lineno ≤ b.lineno := by
    simpa [linenoLe, decide_eq_true_eq] using hle
  rcases Nat.lt_or_ge a.lineno b.lineno with h | h
  · exact Or.inl h
  · have heq : a.lineno = b.lineno := Nat.le_antisymm hab h
    have hba : linenoLe b a = true := by
      simp [linenoLe, decide_eq_true_eq, heq]
    exact Or.inr ⟨heq, htie hba⟩

/-- Checked list indexing: Python `lines[i]`, raising `IndexError` when the
index is out of range. -/
def listGetE (lines : List String) (i : Nat) : Except String String :=
  match lines.get? i with
  | some l => Except.ok l
  | none => Except.error "IndexError"

/-- `RulesMessageValidator.get_context` with Python's checked indexing made
explicit: its `lines[lineno]` and `lines[lineno - 1]` accesses are the only
unguarded list indexing in the validation pass. -/
def getContextE (expected lines : List String) :
    Nat → Except String MessageContext
  | 0 => Except.ok MessageContext.SUBJECT
  | n + 1 =>
    if expected = [] then Except.ok MessageContext.BODY
    else
      match getContextE expected lines n with
      | Except.error e => Except.error e
      | Except.ok prev =>
        if prev = MessageContext.TRAILER then Except.ok MessageContext.TRAILER
        else
          match listGetE lines (n + 1), listGetE lines n with
          | Except.ok line, Except.ok prevLine =>
            Except.ok
              (if (trailerNameIn expected line || reCherrypickMatch line) &&
                  (prevLine == "") then MessageContext.TRAILER
               else MessageContext.BODY)
          | Except.error e, _ => Except.error e
          | _, Except.error e => Except.error e

/-- The per-line loop of `MessageValidator.validate` with the checked
context computation. -/
def checkLinesE (v : RulesMessageValidator) (lines : List String) :
    List (Nat × String) → Except String (List ValidationFailure)
  | [] => Except.ok []
  | (i, line) :: rest =>
    match getContextE v.expected_trailers lines i with
    | Except.error e => Except.error e
    | Except.ok context =>
      match checkLinesE v lines rest with
      | Except.error e => Except.error e
      | Except.ok more =>
        Except.ok
          (v.line_rules.flatMap (fun r => r (i + 1) line context) ++ more)

/-- `CommitSecondLineEmpty` with its guarded `lines[1]` access explicit. -/
def CommitSecondLineEmpty.validateE (lines : List String) :
    Except String (List ValidationFailure) :=
  if lines.length > 1 then
    match listGetE lines 1 with
    | Except.error e => Except.error e
    | Except.ok l =>
      Except.ok
        (if l ≠ "" then [⟨"C1", 2, "Second line should be empty"⟩] else [])
  else Except.ok []

/-- The whole Gerrit validation pass with every Python list index checked. -/
def GerritValidateE (lines : List String) :
    Except String (List ValidationFailure) :=
  match checkLinesE GerritMessageValidator lines lines.enum with
  | Except.error e => Except.error e
  | Except.ok lineErrs =>
    match CommitSecondLineEmpty.validateE lines with
    | Except.error e => Except.error e
    | Except.ok second =>
      Except.ok (lineErrs ++
        (CommitMinLines.validate lines ++ second ++
          CherryPickLast.validate lines ++
          ChangeIdRequired.validate BEFORE_CHANGE_ID lines))

theorem listGetE_ok (lines : List String) (i : Nat) (h : i < lines.length) :
    listGetE lines i = Except.ok (lines.getD i "") := by
  unfold listGetE
  rcases hg : lines.get? i with _ | l
  · rw [List.get?_eq_none] at hg
    omega
  · have : lines.getD i "" = l := by
      simp [List.getD_eq_getElem?_getD, ← List.get?_eq_getElem?, hg]
    rw [this]

theorem getContextE_ok (expected lines : List String) :
    ∀ n, n < lines.length →
      getContextE expected lines n =
        Except.ok (getContext expected lines n) := by
  intro n
  induction n with
  | zero => intro _; rfl
  | succ n ih =>
    intro h
    rw [getContextE, getContext]
    by_cases he : expected = []
    · simp [he]
    · have h1 := listGetE_ok lines (n + 1) h
      have h2 := listGetE_ok lines n (by omega)
      by_cases hprev : getContext expected lines n = MessageContext.TRAILER
      · simp [he, ih (by omega), hprev]
      · simp [he, ih (by omega), hprev, h1, h2]

theorem checkLinesE_ok (v : RulesMessageValidator) (lines : List String) :
    ∀ (l : List String) (k : Nat), k + l.length ≤ lines.length →
      checkLinesE v lines (List.enumFrom k l) =
        Except.ok ((List.enumFrom k l).flatMap
          (fun p => v.check_line lines (p.1 + 1) p.2)) := by
  intro l
  induction l with
  | nil => intro k _; rfl
  | cons x l ih =>
    intro k h
    simp only [List.length_cons] at h
    rw [List.enumFrom, checkLinesE]
    rw [getContextE_ok v.expected_trailers lines k (by omega)]
    rw [ih (k + 1) (by omega)]
    simp [RulesMessageValidator.check_line]

/-- C8: the Gerrit validation pass performs no out-of-range list access for
ANY input line sequence — the checked pass returns `ok` with exactly the
unchecked result — and the empty message yields the minimum-length
violation and the missing-Change-Id violation (both located at line number
0, the length of the empty message). -/
theorem GerritValidateE_ok_and_empty_message :
    (∀ lines : List String,
      GerritValidateE lines =
        Except.ok (GerritMessageValidator.validate lines)) ∧
    ⟨"C2", 0, "Expected at least 3 lines"⟩ ∈
      GerritMessageValidator.validate [] ∧
    ⟨"C6", 0, "Expected Change-Id"⟩ ∈ GerritMessageValidator.validate [] := by
  refine ⟨?_, by decide, by decide⟩
  intro lines
  unfold GerritValidateE
  rw [show lines.enum = List.enumFrom 0 lines from rfl]
  rw [checkLinesE_ok GerritMessageValidator lines lines 0 (by omega)]
  have hsecond : CommitSecondLineEmpty.validateE lines =
      Except.ok (CommitSecondLineEmpty.validate lines) := by
    unfold CommitSecondLineEmpty.validateE CommitSecondLineEmpty.validate
    by_cases h : lines.length > 1
    · rw [if_pos h, listGetE_ok lines 1 (by omega)]
      by_cases h2 : lines.getD 1 "" = ""
      · simp [h, h2]
      · simp [h, h2]
    · rw [if_neg h]
      simp [h]
  rw [hsecond]
  unfold RulesMessageValidator.validate RulesMessageValidator.check_global
  rw [show lines.enum = List.enumFrom 0 lines from rfl]
  simp only [GerritMessageValidator, List.flatMap_cons, List.flatMap_nil,
    List.append_nil, List.append_assoc]
